import Mathlib

/-
Verification of the Elk-Maven knowledge-pipeline schema and web frontend.

The SQLite schema (src/youtube_university/database/schema.sql and
migrations/002_web_ui.sql) is embedded as a state of row lists together
with the engine-level mutations it declares: inserts, updates and deletes
with their AFTER triggers (which maintain the FTS5 index tables) and the
ON DELETE CASCADE foreign-key actions.  The frontend JavaScript
(src/youtube_university/web/static/js/app.js and the canvas markup file)
is embedded as pure functions on explicit state.

Integer keys are modelled as Nat, SQL TEXT as String, SQL REAL as Rat,
nullable columns as Option.
-/

/-- A row of the videos table (schema.sql). -/
structure VideoRow where
  id : Nat
  video_id : String
  channel_id : Nat
  title : String
  description : Option String
  published_at : Option String
  duration_seconds : Option Nat
  view_count : Option Nat
  like_count : Option Nat
  thumbnail_url : Option String
  ingestion_status : String
  failure_reason : Option String
  created_at : String
  updated_at : String
deriving DecidableEq

/-- A row of the transcripts table (schema.sql). -/
structure TranscriptRow where
  id : Nat
  video_id : Nat
  language_code : String
  is_generated : Bool
  full_text : String
  snippet_data : String
  word_count : Nat
  created_at : String
deriving DecidableEq

/-- A row of the knowledge_entries table (schema.sql). -/
structure KnowledgeRow where
  id : Nat
  video_id : Nat
  entry_type : String
  title : String
  content : String
  source_start_time : Option Rat
  source_end_time : Option Rat
  source_quote : Option String
  confidence : Rat
  chunk_index : Option Nat
  created_at : String
deriving DecidableEq

/-- A row of the bias_flags table (migrations/002_web_ui.sql). -/
structure BiasFlagRow where
  id : Nat
  knowledge_id : Nat
  bias_type : String
  bias_severity : String
  brand_names : Option String
  bias_notes : String
  detected_by : String
  created_at : String
deriving DecidableEq

/-- A row of the optimization_queue table (migrations/002_web_ui.sql). -/
structure QueueItemRow where
  id : Nat
  action_type : String
  severity : String
  status : String
  target_type : String
  target_id : Option Nat
  description : String
  details : Option String
  created_at : String
  resolved_at : Option String
  resolved_by : Option String
deriving DecidableEq

/-- A row of the processing_log table (schema.sql). -/
structure ProcessingLogRow where
  id : Nat
  video_id : Nat
  step : String
  chunk_index : Option Nat
  status : String
  tokens_used : Option Nat
  error_message : Option String
  started_at : String
  completed_at : Option String
deriving DecidableEq

/-- A row of the video_fts index table (rowid plus the indexed columns
title, description of videos). -/
structure VideoFtsRow where
  rowid : Nat
  title : String
  description : Option String
deriving DecidableEq

/-- A row of the transcript_fts index table (rowid plus full_text). -/
structure TranscriptFtsRow where
  rowid : Nat
  full_text : String
deriving DecidableEq

/-- A row of the knowledge_fts index table (rowid plus title, content,
source_quote). -/
structure KnowledgeFtsRow where
  rowid : Nat
  title : String
  content : String
  source_quote : Option String
deriving DecidableEq

/-- The database state: one list per table declared in schema.sql and
migrations/002_web_ui.sql that the claims concern (chat tables and the
channels table carry no claim and are omitted). -/
structure DBState where
  videos : List VideoRow
  transcripts : List TranscriptRow
  knowledge_entries : List KnowledgeRow
  bias_flags : List BiasFlagRow
  optimization_queue : List QueueItemRow
  processing_log : List ProcessingLogRow
  video_fts : List VideoFtsRow
  transcript_fts : List TranscriptFtsRow
  knowledge_fts : List KnowledgeFtsRow
deriving DecidableEq

/-- The indexed columns of a video row, as inserted by the video_ai /
video_au triggers. -/
def videoIndexed (v : VideoRow) : VideoFtsRow :=
  { rowid := v.id, title := v.title, description := v.description }

/-- The indexed column of a transcript row, as inserted by transcript_ai. -/
def transcriptIndexed (t : TranscriptRow) : TranscriptFtsRow :=
  { rowid := t.id, full_text := t.full_text }

/-- The indexed columns of a knowledge row, as inserted by knowledge_ai /
knowledge_au. -/
def knowledgeIndexed (k : KnowledgeRow) : KnowledgeFtsRow :=
  { rowid := k.id, title := k.title, content := k.content,
    source_quote := k.source_quote }

/-- INSERT INTO videos: appends the row and fires the video_ai trigger,
which inserts the indexed columns into video_fts. -/
def insertVideoRaw (r : VideoRow) (s : DBState) : DBState :=
  { s with videos := s.videos ++ [r],
           video_fts := s.video_fts ++ [videoIndexed r] }

/-- UPDATE videos ... WHERE id = r.id: replaces the matching row and fires
the video_au trigger, which deletes the old video_fts row and inserts the
new indexed columns.  When no row matches, nothing happens and no trigger
fires. -/
def updateVideoRaw (r : VideoRow) (s : DBState) : DBState :=
  if s.videos.any (fun v => decide (v.id = r.id)) then
    { s with
      videos := s.videos.map (fun v => if v.id = r.id then r else v),
      video_fts := s.video_fts.filter (fun row => decide (row.rowid ≠ r.id))
                    ++ [videoIndexed r] }
  else s

/-- DELETE FROM transcripts WHERE id = tid: removes the row and fires the
transcript_ad trigger, which deletes the transcript_fts row. -/
def deleteTranscriptRaw (tid : Nat) (s : DBState) : DBState :=
  { s with
    transcripts := s.transcripts.filter (fun t => decide (t.id ≠ tid)),
    transcript_fts := s.transcript_fts.filter (fun row => decide (row.rowid ≠ tid)) }

/-- DELETE FROM knowledge_entries WHERE id = kid: removes the row, fires
the knowledge_ad trigger (deleting the knowledge_fts row), and the
ON DELETE CASCADE action of bias_flags.knowledge_id removes the flags of
that entry. -/
def deleteKnowledgeRaw (kid : Nat) (s : DBState) : DBState :=
  { s with
    knowledge_entries := s.knowledge_entries.filter (fun k => decide (k.id ≠ kid)),
    knowledge_fts := s.knowledge_fts.filter (fun row => decide (row.rowid ≠ kid)),
    bias_flags := s.bias_flags.filter (fun b => decide (b.knowledge_id ≠ kid)) }

/-- DELETE FROM videos WHERE id = vid.  The ON DELETE CASCADE actions of
transcripts.video_id, knowledge_entries.video_id and processing_log.video_id
remove the dependent rows; the cascaded deletes fire transcript_ad and
knowledge_ad (and, through knowledge_entries, the bias_flags cascade), and
the video_ad trigger removes the video_fts row.  optimization_queue declares
no foreign key on target_id and is untouched. -/
def deleteVideoRaw (vid : Nat) (s : DBState) : DBState :=
  let tids := (s.transcripts.filter (fun t => decide (t.video_id = vid))).map (fun t => t.id)
  let kids := (s.knowledge_entries.filter (fun k => decide (k.video_id = vid))).map (fun k => k.id)
  let s1 := tids.foldl (fun acc tid => deleteTranscriptRaw tid acc) s
  let s2 := kids.foldl (fun acc kid => deleteKnowledgeRaw kid acc) s1
  { s2 with
    videos := s2.videos.filter (fun v => decide (v.id ≠ vid)),
    video_fts := s2.video_fts.filter (fun row => decide (row.rowid ≠ vid)),
    processing_log := s2.processing_log.filter (fun p => decide (p.video_id ≠ vid)) }

/-- INSERT INTO transcripts: appends the row and fires transcript_ai. -/
def insertTranscriptRaw (r : TranscriptRow) (s : DBState) : DBState :=
  { s with transcripts := s.transcripts ++ [r],
           transcript_fts := s.transcript_fts ++ [transcriptIndexed r] }

/-- UPDATE transcripts ... WHERE id = r.id: replaces the matching row.
The schema declares no AFTER UPDATE trigger on transcripts, so the
transcript_fts table is left untouched. -/
def updateTranscriptRaw (r : TranscriptRow) (s : DBState) : DBState :=
  if s.transcripts.any (fun t => decide (t.id = r.id)) then
    { s with transcripts := s.transcripts.map (fun t => if t.id = r.id then r else t) }
  else s

/-- INSERT INTO knowledge_entries: appends the row and fires knowledge_ai. -/
def insertKnowledgeRaw (r : KnowledgeRow) (s : DBState) : DBState :=
  { s with knowledge_entries := s.knowledge_entries ++ [r],
           knowledge_fts := s.knowledge_fts ++ [knowledgeIndexed r] }

/-- UPDATE knowledge_entries ... WHERE id = r.id: replaces the matching row
and fires the knowledge_au trigger, which deletes the old knowledge_fts row
and inserts the new indexed columns. -/
def updateKnowledgeRaw (r : KnowledgeRow) (s : DBState) : DBState :=
  if s.knowledge_entries.any (fun k => decide (k.id = r.id)) then
    { s with
      knowledge_entries := s.knowledge_entries.map (fun k => if k.id = r.id then r else k),
      knowledge_fts := s.knowledge_fts.filter (fun row => decide (row.rowid ≠ r.id))
                        ++ [knowledgeIndexed r] }
  else s

/-- The FTS synchronization invariant: every index table holds, up to
order, exactly one row per source row, carrying the indexed columns of
that source row. -/
def ftsInSync (s : DBState) : Prop :=
  s.video_fts.Perm (s.videos.map videoIndexed) ∧
  s.transcript_fts.Perm (s.transcripts.map transcriptIndexed) ∧
  s.knowledge_fts.Perm (s.knowledge_entries.map knowledgeIndexed)

instance (s : DBState) : Decidable (ftsInSync s) := by
  unfold ftsInSync; infer_instance

/-- Primary-key discipline: the id column of each source table is unique
(INTEGER PRIMARY KEY in the schema). -/
def pkOk (s : DBState) : Prop :=
  (s.videos.map (fun v => v.id)).Nodup ∧
  (s.transcripts.map (fun t => t.id)).Nodup ∧
  (s.knowledge_entries.map (fun k => k.id)).Nodup

instance (s : DBState) : Decidable (pkOk s) := by
  unfold pkOk; infer_instance

/-- Substring occurrence on character lists: true when the needle occurs
contiguously in the haystack.  Used as the match relation of the FTS
engine model. -/
def occursIn (needle : List Char) : List Char → Bool
  | [] => needle.isPrefixOf []
  | c :: rest => needle.isPrefixOf (c :: rest) || occursIn needle rest

/-- Whether a knowledge_fts row matches a free-text query: the query text
occurs in one of the indexed columns title, content, source_quote. -/
def ftsMatch (q : String) (row : KnowledgeFtsRow) : Bool :=
  occursIn q.data row.title.data || occursIn q.data row.content.data ||
    (match row.source_quote with
     | some t => occursIn q.data t.data
     | none => false)

/-- Full-text search over the knowledge index: the ids (rowids) of the
knowledge_fts rows matching the query. -/
def searchKnowledge (q : String) (s : DBState) : List Nat :=
  (s.knowledge_fts.filter (fun row => ftsMatch q row)).map (fun row => row.rowid)

/-- The CHECK list of knowledge_entries.entry_type (schema.sql). -/
def entryTypeValid (t : String) : Bool :=
  decide (t = "insight" ∨ t = "tip" ∨ t = "concept" ∨ t = "technique" ∨
          t = "warning" ∨ t = "resource" ∨ t = "quote")

/-- The CHECK list of videos.ingestion_status (schema.sql). -/
def ingestionStatusValid (t : String) : Bool :=
  decide (t = "pending" ∨ t = "transcript_fetched" ∨ t = "analyzed" ∨
          t = "failed" ∨ t = "skipped")

/-- The CHECK list of bias_flags.bias_type (migrations/002_web_ui.sql). -/
def biasTypeValid (t : String) : Bool :=
  decide (t = "brand_promotion" ∨ t = "affiliate" ∨ t = "sponsored" ∨
          t = "product_placement" ∨ t = "unsubstantiated_claim")

/-- The CHECK list of bias_flags.bias_severity (migrations/002_web_ui.sql). -/
def biasSeverityValid (t : String) : Bool :=
  decide (t = "low" ∨ t = "medium" ∨ t = "high")

/-- The CHECK list of optimization_queue.status (migrations/002_web_ui.sql). -/
def statusValid (t : String) : Bool :=
  decide (t = "pending" ∨ t = "approved" ∨ t = "rejected" ∨
          t = "executed" ∨ t = "failed")

/-- The CHECK list of optimization_queue.severity (migrations/002_web_ui.sql). -/
def severityValid (t : String) : Bool :=
  decide (t = "auto" ∨ t = "suggestion" ∨ t = "destructive")

/-- The invariant the CHECK constraints of knowledge_entries impose on a
stored row: entry_type in the enumerated list and confidence in the
closed interval from 0 to 1. -/
def storedEntryOk (k : KnowledgeRow) : Prop :=
  entryTypeValid k.entry_type = true ∧ 0 ≤ k.confidence ∧ k.confidence ≤ 1

instance (k : KnowledgeRow) : Decidable (storedEntryOk k) := by
  unfold storedEntryOk; infer_instance

/-- Construction of a knowledge_entries row by an INSERT statement that may
omit the confidence column: the schema declares DEFAULT 0.8, so an omitted
confidence is stored as 4/5. -/
def mkKnowledgeRow (id video_id : Nat) (entry_type title content : String)
    (source_start_time source_end_time : Option Rat)
    (source_quote : Option String) (confidence : Option Rat)
    (chunk_index : Option Nat) (created_at : String) : KnowledgeRow :=
  { id, video_id, entry_type, title, content, source_start_time,
    source_end_time, source_quote,
    confidence := confidence.getD (4/5), chunk_index, created_at }

/-- Checked INSERT INTO videos: enforces the ingestion_status CHECK and
the UNIQUE constraint on the video_id column; on success the insert runs
with its trigger, on violation the statement fails and no row is written.
The foreign key into channels is outside the modelled tables. -/
def insertVideoChecked (r : VideoRow) (s : DBState) : Except String DBState :=
  if ingestionStatusValid r.ingestion_status = false then
    Except.error "CHECK constraint failed: ingestion_status"
  else if s.videos.any (fun v => decide (v.video_id = r.video_id)) then
    Except.error "UNIQUE constraint failed: videos.video_id"
  else
    Except.ok (insertVideoRaw r s)

/-- Checked INSERT INTO transcripts: enforces the UNIQUE constraint on
video_id (one transcript per video) and the foreign key into videos. -/
def insertTranscriptChecked (r : TranscriptRow) (s : DBState) : Except String DBState :=
  if s.transcripts.any (fun t => decide (t.video_id = r.video_id)) then
    Except.error "UNIQUE constraint failed: transcripts.video_id"
  else if s.videos.any (fun v => decide (v.id = r.video_id)) = false then
    Except.error "FOREIGN KEY constraint failed"
  else
    Except.ok (insertTranscriptRaw r s)

/-- Checked INSERT INTO knowledge_entries: enforces the entry_type and
confidence CHECK constraints and the foreign key into videos. -/
def insertKnowledgeChecked (r : KnowledgeRow) (s : DBState) : Except String DBState :=
  if entryTypeValid r.entry_type = false then
    Except.error "CHECK constraint failed: entry_type"
  else if decide (0 ≤ r.confidence ∧ r.confidence ≤ 1) = false then
    Except.error "CHECK constraint failed: confidence"
  else if s.videos.any (fun v => decide (v.id = r.video_id)) = false then
    Except.error "FOREIGN KEY constraint failed"
  else
    Except.ok (insertKnowledgeRaw r s)

/-- Checked INSERT INTO bias_flags: enforces the bias_type and
bias_severity CHECK constraints, the UNIQUE(knowledge_id, bias_type)
constraint and the foreign key into knowledge_entries. -/
def insertBiasFlagChecked (r : BiasFlagRow) (s : DBState) : Except String DBState :=
  if biasTypeValid r.bias_type = false then
    Except.error "CHECK constraint failed: bias_type"
  else if biasSeverityValid r.bias_severity = false then
    Except.error "CHECK constraint failed: bias_severity"
  else if s.bias_flags.any (fun b =>
      decide (b.knowledge_id = r.knowledge_id ∧ b.bias_type = r.bias_type)) then
    Except.error "UNIQUE constraint failed: bias_flags.knowledge_id, bias_flags.bias_type"
  else if s.knowledge_entries.any (fun k => decide (k.id = r.knowledge_id)) = false then
    Except.error "FOREIGN KEY constraint failed"
  else
    Except.ok { s with bias_flags := s.bias_flags ++ [r] }

/-- Modelled from the spec: the write path of the Entity Store runs a
single attempt of a mutating statement and surfaces a
DataIntegrityViolation to the caller without retrying (error taxonomy of
section 7); the statement is atomic, so on failure the returned store is
the unchanged input store.  The surrounding write-path code is not under
src; only the constraints it enforces are declared there. -/
def runWrite (op : DBState → Except String DBState) (s : DBState) :
    DBState × Option String :=
  match op s with
  | Except.ok s2 => (s2, none)
  | Except.error e => (s, some e)

/-- Modelled from the spec: the in-place update a rescan applies to a
matching bias flag — severity, notes and brand names come from the new
scan result, the key and identity of the row stay. -/
def replaceFlag (f b : BiasFlagRow) : BiasFlagRow :=
  if b.knowledge_id = f.knowledge_id ∧ b.bias_type = f.bias_type then
    { b with bias_severity := f.bias_severity,
             bias_notes := f.bias_notes,
             brand_names := f.brand_names }
  else b

/-- Modelled from the spec: the bias review layer upserts a BiasFlag keyed
by the pair (knowledge_id, bias_type) — a second scan that reclassifies
severity updates the severity, notes and brand names of the existing row
rather than creating a duplicate (section 4.3).  The scan routine itself is
not under src; the UNIQUE(knowledge_id, bias_type) constraint it maintains
is declared in migrations/002_web_ui.sql. -/
def upsertBiasFlag (f : BiasFlagRow) (s : DBState) : DBState :=
  if s.bias_flags.any (fun b =>
      decide (b.knowledge_id = f.knowledge_id ∧ b.bias_type = f.bias_type)) then
    { s with bias_flags := s.bias_flags.map (replaceFlag f) }
  else
    { s with bias_flags := s.bias_flags ++ [f] }

/-- The number of bias_flags rows carrying a given (knowledge_id, bias_type)
key. -/
def flagCount (s : DBState) (kid : Nat) (bt : String) : Nat :=
  (s.bias_flags.filter (fun b => decide (b.knowledge_id = kid ∧ b.bias_type = bt))).length

/-- Uniqueness of the (knowledge_id, bias_type) key across the bias_flags
table, as the UNIQUE constraint of migrations/002_web_ui.sql demands. -/
def biasKeysUnique (s : DBState) : Prop :=
  s.bias_flags.Pairwise (fun a b =>
    ¬ (a.knowledge_id = b.knowledge_id ∧ a.bias_type = b.bias_type))

instance (s : DBState) : Decidable (biasKeysUnique s) := by
  unfold biasKeysUnique; infer_instance

/-- Modelled from the spec: enqueue of the optimization queue (section 4.4)
creates a pending item, except when severity is auto, in which case the
action is executed immediately and the item is recorded as executed, or as
failed when execution raised an error, skipping the approval gate.  The
enqueue routine is not under src; the optimization_queue table it writes
(with DEFAULT pending) is declared in migrations/002_web_ui.sql.  The
outcome of the immediately executed external action is abstracted as
execResult. -/
def enqueueItem (id : Nat) (actionType severity targetType : String)
    (targetId : Option Nat) (description : String) (details : Option String)
    (createdAt : String) (execResult : Except String Unit) : QueueItemRow :=
  if severity = "auto" then
    match execResult with
    | Except.ok _ =>
      { id, action_type := actionType, severity, status := "executed",
        target_type := targetType, target_id := targetId, description,
        details, created_at := createdAt, resolved_at := some createdAt,
        resolved_by := some "system" }
    | Except.error _ =>
      { id, action_type := actionType, severity, status := "failed",
        target_type := targetType, target_id := targetId, description,
        details, created_at := createdAt, resolved_at := some createdAt,
        resolved_by := some "system" }
  else
    { id, action_type := actionType, severity, status := "pending",
      target_type := targetType, target_id := targetId, description,
      details, created_at := createdAt, resolved_at := none,
      resolved_by := none }

/-- Modelled from the spec: enqueue appends the created item to the
optimization_queue table. -/
def enqueue (id : Nat) (actionType severity targetType : String)
    (targetId : Option Nat) (description : String) (details : Option String)
    (createdAt : String) (execResult : Except String Unit) (s : DBState) : DBState :=
  { s with optimization_queue := s.optimization_queue ++
      [enqueueItem id actionType severity targetType targetId description
        details createdAt execResult] }

theorem map_filter_key {α β : Type} (f : α → β) (ka : α → Nat) (kb : β → Nat)
    (hk : ∀ a, kb (f a) = ka a) (p : Nat → Bool) (l : List α) :
    (l.filter (fun a => p (ka a))).map f = (l.map f).filter (fun b => p (kb b)) := by
  induction l with
  | nil => simp
  | cons a l ih =>
    simp only [List.filter_cons, List.map_cons, hk]
    cases h : p (ka a) <;> simp [h, ih]

theorem map_nochange {α : Type} (key : α → Nat) (r : α) (l : List α)
    (h : ∀ x ∈ l, key x ≠ key r) :
    l.map (fun x => if key x = key r then r else x) = l := by
  induction l with
  | nil => simp
  | cons a l ih =>
    simp only [List.map_cons]
    rw [if_neg (h a (List.mem_cons_self a l)), ih (fun x hx => h x (List.mem_cons_of_mem a hx))]

theorem filter_nochange {α : Type} (key : α → Nat) (r : α) (l : List α)
    (h : ∀ x ∈ l, key x ≠ key r) :
    l.filter (fun x => decide (key x ≠ key r)) = l := by
  induction l with
  | nil => simp
  | cons a l ih =>
    rw [List.filter_cons_of_pos (by simp [h a (List.mem_cons_self a l)]),
        ih (fun x hx => h x (List.mem_cons_of_mem a hx))]

theorem replace_perm {α : Type} (key : α → Nat) (r : α) (l : List α)
    (hnd : (l.map key).Nodup) (hm : ∃ x ∈ l, key x = key r) :
    (l.map (fun x => if key x = key r then r else x)).Perm
      ((l.filter (fun x => decide (key x ≠ key r))) ++ [r]) := by
  induction l with
  | nil => simp at hm
  | cons a l ih =>
    simp only [List.map_cons, List.nodup_cons, List.mem_map] at hnd
    simp only [List.map_cons]
    by_cases ha : key a = key r
    · have hno : ∀ x ∈ l, key x ≠ key r := by
        intro x hx hkey
        exact hnd.1 ⟨x, hx, hkey.trans ha.symm⟩
      rw [if_pos ha, map_nochange key r l hno,
          List.filter_cons_of_neg (by simp [ha]), filter_nochange key r l hno]
      exact (List.perm_append_singleton r l).symm
    · have hm2 : ∃ x ∈ l, key x = key r := by
        rcases hm with ⟨x, hx, hkey⟩
        rcases List.mem_cons.mp hx with h1 | h2
        · exact absurd (h1 ▸ hkey) ha
        · exact ⟨x, h2, hkey⟩
      rw [if_neg ha, List.filter_cons_of_pos (by simp [ha]), List.cons_append]
      exact (ih hnd.2 hm2).cons a

theorem foldDeleteTranscripts (tids : List Nat) (s : DBState) :
    tids.foldl (fun acc tid => deleteTranscriptRaw tid acc) s =
    { s with
      transcripts := s.transcripts.filter (fun t => decide (t.id ∉ tids)),
      transcript_fts := s.transcript_fts.filter (fun row => decide (row.rowid ∉ tids)) } := by
  induction tids generalizing s with
  | nil => simp
  | cons tid rest ih =>
    rw [List.foldl_cons, ih]
    simp only [deleteTranscriptRaw, List.filter_filter]
    congr 1
    · exact List.filter_congr (by intro t _; simp [List.mem_cons, not_or, Bool.and_comm])
    · exact List.filter_congr (by intro row _; simp [List.mem_cons, not_or, Bool.and_comm])

theorem foldDeleteKnowledge (kids : List Nat) (s : DBState) :
    kids.foldl (fun acc kid => deleteKnowledgeRaw kid acc) s =
    { s with
      knowledge_entries := s.knowledge_entries.filter (fun k => decide (k.id ∉ kids)),
      knowledge_fts := s.knowledge_fts.filter (fun row => decide (row.rowid ∉ kids)),
      bias_flags := s.bias_flags.filter (fun b => decide (b.knowledge_id ∉ kids)) } := by
  induction kids generalizing s with
  | nil => simp
  | cons kid rest ih =>
    rw [List.foldl_cons, ih]
    simp only [deleteKnowledgeRaw, List.filter_filter]
    congr 1
    · exact List.filter_congr (by intro k _; simp [List.mem_cons, not_or, Bool.and_comm])
    · exact List.filter_congr (by intro row _; simp [List.mem_cons, not_or, Bool.and_comm])
    · exact List.filter_congr (by intro b _; simp [List.mem_cons, not_or, Bool.and_comm])

theorem perm_filter_exchange {α β : Type} (f : α → β) (ka : α → Nat) (kb : β → Nat)
    (hk : ∀ a, kb (f a) = ka a) (p : Nat → Bool) {fts : List β} {l : List α}
    (h : fts.Perm (l.map f)) :
    (fts.filter (fun b => p (kb b))).Perm ((l.filter (fun a => p (ka a))).map f) := by
  rw [map_filter_key f ka kb hk p l]
  exact h.filter _

theorem ftsInSync_insertVideoRaw (r : VideoRow) (s : DBState) (h : ftsInSync s) :
    ftsInSync (insertVideoRaw r s) := by
  obtain ⟨h1, h2, h3⟩ := h
  refine ⟨?_, h2, h3⟩
  show (s.video_fts ++ [videoIndexed r]).Perm ((s.videos ++ [r]).map videoIndexed)
  rw [List.map_append]
  exact h1.append_right _

theorem ftsInSync_insertTranscriptRaw (r : TranscriptRow) (s : DBState) (h : ftsInSync s) :
    ftsInSync (insertTranscriptRaw r s) := by
  obtain ⟨h1, h2, h3⟩ := h
  refine ⟨h1, ?_, h3⟩
  show (s.transcript_fts ++ [transcriptIndexed r]).Perm ((s.transcripts ++ [r]).map transcriptIndexed)
  rw [List.map_append]
  exact h2.append_right _

theorem ftsInSync_insertKnowledgeRaw (r : KnowledgeRow) (s : DBState) (h : ftsInSync s) :
    ftsInSync (insertKnowledgeRaw r s) := by
  obtain ⟨h1, h2, h3⟩ := h
  refine ⟨h1, h2, ?_⟩
  show (s.knowledge_fts ++ [knowledgeIndexed r]).Perm ((s.knowledge_entries ++ [r]).map knowledgeIndexed)
  rw [List.map_append]
  exact h3.append_right _

theorem ftsInSync_deleteTranscriptRaw (tid : Nat) (s : DBState) (h : ftsInSync s) :
    ftsInSync (deleteTranscriptRaw tid s) := by
  obtain ⟨h1, h2, h3⟩ := h
  exact ⟨h1,
    perm_filter_exchange transcriptIndexed (fun t => t.id) (fun row => row.rowid)
      (fun a => rfl) (fun n => decide (n ≠ tid)) h2, h3⟩

theorem ftsInSync_deleteKnowledgeRaw (kid : Nat) (s : DBState) (h : ftsInSync s) :
    ftsInSync (deleteKnowledgeRaw kid s) := by
  obtain ⟨h1, h2, h3⟩ := h
  exact ⟨h1, h2,
    perm_filter_exchange knowledgeIndexed (fun k => k.id) (fun row => row.rowid)
      (fun a => rfl) (fun n => decide (n ≠ kid)) h3⟩

theorem ftsInSync_deleteVideoRaw (vid : Nat) (s : DBState) (h : ftsInSync s) :
    ftsInSync (deleteVideoRaw vid s) := by
  obtain ⟨h1, h2, h3⟩ := h
  rw [deleteVideoRaw]
  simp only [foldDeleteTranscripts, foldDeleteKnowledge]
  refine ⟨?_, ?_, ?_⟩
  · exact perm_filter_exchange videoIndexed (fun v => v.id) (fun row => row.rowid)
      (fun a => rfl) (fun n => decide (n ≠ vid)) h1
  · exact perm_filter_exchange transcriptIndexed (fun t => t.id) (fun row => row.rowid)
      (fun a => rfl)
      (fun n => decide (n ∉ (s.transcripts.filter (fun t => decide (t.video_id = vid))).map (fun t => t.id))) h2
  · exact perm_filter_exchange knowledgeIndexed (fun k => k.id) (fun row => row.rowid)
      (fun a => rfl)
      (fun n => decide (n ∉ (s.knowledge_entries.filter (fun k => decide (k.video_id = vid))).map (fun k => k.id))) h3

theorem ftsInSync_updateVideoRaw (r : VideoRow) (s : DBState) (h : ftsInSync s)
    (hpk : (s.videos.map (fun v => v.id)).Nodup) :
    ftsInSync (updateVideoRaw r s) := by
  obtain ⟨h1, h2, h3⟩ := h
  by_cases hc : s.videos.any (fun v => decide (v.id = r.id)) = true
  · rw [updateVideoRaw, if_pos hc]
    refine ⟨?_, h2, h3⟩
    have hm : ∃ x ∈ s.videos, x.id = r.id := by simpa using hc
    have hrep := (replace_perm (fun v : VideoRow => v.id) r s.videos hpk hm).map videoIndexed
    have hex := perm_filter_exchange videoIndexed (fun v => v.id) (fun row => row.rowid)
      (fun a => rfl) (fun n => decide (n ≠ r.id)) h1
    have heq : (s.videos.filter (fun v => decide (v.id ≠ r.id))).map videoIndexed ++ [videoIndexed r]
        = (s.videos.filter (fun v => decide (v.id ≠ r.id)) ++ [r]).map videoIndexed := by
      rw [List.map_append]; rfl
    have step1 := hex.append_right [videoIndexed r]
    rw [heq] at step1
    exact step1.trans hrep.symm
  · rw [updateVideoRaw, if_neg hc]
    exact ⟨h1, h2, h3⟩

theorem ftsInSync_updateKnowledgeRaw (r : KnowledgeRow) (s : DBState) (h : ftsInSync s)
    (hpk : (s.knowledge_entries.map (fun k => k.id)).Nodup) :
    ftsInSync (updateKnowledgeRaw r s) := by
  obtain ⟨h1, h2, h3⟩ := h
  by_cases hc : s.knowledge_entries.any (fun k => decide (k.id = r.id)) = true
  · rw [updateKnowledgeRaw, if_pos hc]
    refine ⟨h1, h2, ?_⟩
    have hm : ∃ x ∈ s.knowledge_entries, x.id = r.id := by simpa using hc
    have hrep := (replace_perm (fun k : KnowledgeRow => k.id) r s.knowledge_entries hpk hm).map knowledgeIndexed
    have hex := perm_filter_exchange knowledgeIndexed (fun k => k.id) (fun row => row.rowid)
      (fun a => rfl) (fun n => decide (n ≠ r.id)) h3
    have heq : (s.knowledge_entries.filter (fun k => decide (k.id ≠ r.id))).map knowledgeIndexed ++ [knowledgeIndexed r]
        = (s.knowledge_entries.filter (fun k => decide (k.id ≠ r.id)) ++ [r]).map knowledgeIndexed := by
      rw [List.map_append]; rfl
    have step1 := hex.append_right [knowledgeIndexed r]
    rw [heq] at step1
    exact step1.trans hrep.symm
  · rw [updateKnowledgeRaw, if_neg hc]
    exact ⟨h1, h2, h3⟩

/-- The per-character action of the browser HTML text serializer that
escapeHtml (app.js) delegates to via textContent / innerHTML: the
characters ampersand, less-than, greater-than and non-breaking space
become entities, every other character passes through. -/
def escapeHtmlChar (c : Char) : List Char :=
  if c = '&' then "&amp;".data
  else if c = '<' then "&lt;".data
  else if c = '>' then "&gt;".data
  else if c = Char.ofNat 160 then "&nbsp;".data
  else [c]

/-- escapeHtml of app.js: assigns the input to textContent of a fresh div
and reads innerHTML back, which serializes the text node with the
escaping above. -/
def escapeHtml (text : String) : String :=
  String.mk (text.data.flatMap escapeHtmlChar)

/-- The message body HTML that addMessageToUI (app.js) inserts into the
message div: the escaped content string. -/
def addMessageBodyHtml (content : String) : String :=
  escapeHtml content

/-- One canvas annotation object, with the shapes the markup tool
constructs (freehand, line, arrow, rect, text).  Pixel coordinates are
modelled as integers. -/
inductive AnnotationItem where
  | freehand (points : List (Int × Int)) (color : String) (width : Nat)
  | line (x1 y1 x2 y2 : Int) (color : String) (width : Nat)
  | arrow (x1 y1 x2 y2 : Int) (color : String) (width : Nat)
  | rect (x y w h : Int) (color : String) (width : Nat)
  | text (x y : Int) (label color : String) (fontSize : Nat)
deriving DecidableEq

/-- The canvasState object of the markup tool (the DOM-only
backgroundImage field is omitted). -/
structure CanvasState where
  imageId : Option Nat
  tool : String
  color : String
  lineWidth : Nat
  isDrawing : Bool
  startX : Int
  startY : Int
  annotations : List AnnotationItem
  undoStack : List AnnotationItem
deriving DecidableEq

/-- The undo button handler of setupToolbar: when annotations is
non-empty, pop the last annotation and push it onto undoStack; otherwise
do nothing. -/
def undoClick (cs : CanvasState) : CanvasState :=
  match cs.annotations.getLast? with
  | none => cs
  | some a =>
    { cs with annotations := cs.annotations.dropLast,
              undoStack := cs.undoStack ++ [a] }

/-- removeAttachment of app.js: pendingImageIds is replaced by its filter
keeping every id different from the removed one. -/
def removeAttachment (imageId : Nat) (pendingImageIds : List Nat) : List Nat :=
  pendingImageIds.filter (fun i => decide (i ≠ imageId))

/-- The empty database. -/
def dbEmpty : DBState :=
  { videos := [], transcripts := [], knowledge_entries := [], bias_flags := [],
    optimization_queue := [], processing_log := [], video_fts := [],
    transcript_fts := [], knowledge_fts := [] }

/-- A sample video row. -/
def sampleV : VideoRow :=
  { id := 1, video_id := "yt01", channel_id := 1, title := "Elk calling basics",
    description := none, published_at := none, duration_seconds := none,
    view_count := none, like_count := none, thumbnail_url := none,
    ingestion_status := "pending", failure_reason := none,
    created_at := "t0", updated_at := "t0" }

/-- A sample transcript row. -/
def sampleT : TranscriptRow :=
  { id := 1, video_id := 1, language_code := "en", is_generated := false,
    full_text := "alpha", snippet_data := "[]", word_count := 1, created_at := "t0" }

/-- A sample confidence value, nine tenths, given in normal form so that
kernel evaluation reduces comparisons on it. -/
def sampleConfidence : Rat := ⟨9, 10, by decide, by decide⟩

/-- A sample knowledge row. -/
def sampleK : KnowledgeRow :=
  { id := 1, video_id := 1, entry_type := "tip", title := "alpha tips",
    content := "call early", source_start_time := none, source_end_time := none,
    source_quote := none, confidence := sampleConfidence, chunk_index := some 0,
    created_at := "t0" }

/-- A sample bias flag row. -/
def sampleB : BiasFlagRow :=
  { id := 1, knowledge_id := 1, bias_type := "sponsored", bias_severity := "low",
    brand_names := none, bias_notes := "mentions brand", detected_by := "bias_agent",
    created_at := "t0" }

/-- A state holding one transcript whose index row is in sync. -/
def dbOneTranscript : DBState :=
  { dbEmpty with transcripts := [sampleT],
                 transcript_fts := [transcriptIndexed sampleT] }

/-- The sample transcript with its full_text changed in place. -/
def sampleTBeta : TranscriptRow :=
  { sampleT with full_text := "beta" }

/-- A sample processing_log row referencing video 1. -/
def samplePL : ProcessingLogRow :=
  { id := 1, video_id := 1, step := "fetch_transcript", chunk_index := none,
    status := "failed", tokens_used := none, error_message := some "no captions",
    started_at := "t0", completed_at := some "t1" }

/-- A state holding one video and one processing_log row for it. -/
def dbVideoWithLog : DBState :=
  { dbEmpty with videos := [sampleV], video_fts := [videoIndexed sampleV],
                 processing_log := [samplePL] }

/-- A state holding one video, in sync. -/
def dbOneVideo : DBState :=
  { dbEmpty with videos := [sampleV], video_fts := [videoIndexed sampleV] }

/-- A state holding one video, one knowledge entry and one bias flag. -/
def dbFull : DBState :=
  { dbEmpty with
    videos := [sampleV], video_fts := [videoIndexed sampleV],
    knowledge_entries := [sampleK], knowledge_fts := [knowledgeIndexed sampleK],
    bias_flags := [sampleB] }

/-- The sample bias flag rescanned at a different severity. -/
def sampleBHigh : BiasFlagRow :=
  { sampleB with id := 2, bias_severity := "high", bias_notes := "strong promotion" }

/-- C1 (amended): every insert and delete on videos, transcripts and
knowledge_entries, and every in-place update on videos and
knowledge_entries, preserves the FTS synchronization invariant — after the
mutation the index holds exactly one row per existing source row, with
fields equal to the indexed columns, and no row for a deleted source row.
An in-place update of a transcripts row is excluded: the schema declares
no AFTER UPDATE trigger on transcripts (transcripts are replaced by
delete plus insert). -/
theorem c1_fts_sync_mutations (s : DBState) (h : ftsInSync s) (hpk : pkOk s)
    (rv : VideoRow) (rt : TranscriptRow) (rk : KnowledgeRow) (vid tid kid : Nat) :
    ftsInSync (insertVideoRaw rv s) ∧ ftsInSync (updateVideoRaw rv s) ∧
    ftsInSync (deleteVideoRaw vid s) ∧ ftsInSync (insertTranscriptRaw rt s) ∧
    ftsInSync (deleteTranscriptRaw tid s) ∧ ftsInSync (insertKnowledgeRaw rk s) ∧
    ftsInSync (updateKnowledgeRaw rk s) ∧ ftsInSync (deleteKnowledgeRaw kid s) :=
  ⟨ftsInSync_insertVideoRaw rv s h, ftsInSync_updateVideoRaw rv s h hpk.1,
   ftsInSync_deleteVideoRaw vid s h, ftsInSync_insertTranscriptRaw rt s h,
   ftsInSync_deleteTranscriptRaw tid s h, ftsInSync_insertKnowledgeRaw rk s h,
   ftsInSync_updateKnowledgeRaw rk s h hpk.2.2, ftsInSync_deleteKnowledgeRaw kid s h⟩

/-- C1 counterexample: a state with one transcript in sync, whose
full_text is then changed by an in-place UPDATE; no transcript trigger
fires on update, so the index row no longer matches the source row. -/
theorem c1_counterexample :
    ftsInSync dbOneTranscript ∧
    ¬ ftsInSync (updateTranscriptRaw sampleTBeta dbOneTranscript) := by
  decide

/-- C1 witness: the preservation theorem instantiated at the empty
database and sample rows. -/
theorem c1_witness :
    ftsInSync dbEmpty ∧ pkOk dbEmpty ∧
    (ftsInSync (insertVideoRaw sampleV dbEmpty) ∧
     ftsInSync (updateVideoRaw sampleV dbEmpty) ∧
     ftsInSync (deleteVideoRaw 1 dbEmpty) ∧
     ftsInSync (insertTranscriptRaw sampleT dbEmpty) ∧
     ftsInSync (deleteTranscriptRaw 1 dbEmpty) ∧
     ftsInSync (insertKnowledgeRaw sampleK dbEmpty) ∧
     ftsInSync (updateKnowledgeRaw sampleK dbEmpty) ∧
     ftsInSync (deleteKnowledgeRaw 1 dbEmpty)) :=
  ⟨by decide, by decide,
   c1_fts_sync_mutations dbEmpty (by decide) (by decide) sampleV sampleT sampleK 1 1 1⟩

/-- C3 (amended): deleting a video cascade-deletes its transcript and all
of its knowledge entries; deleting a knowledge entry cascade-deletes its
bias flags; optimization_queue rows are never deleted by either cascade
(weak reference by target_type and target_id); processing_log rows,
however, carry ON DELETE CASCADE on video_id, so the log rows of a
deleted video are deleted with it (and knowledge deletion leaves the log
untouched). -/
theorem c3_cascade_ownership (s : DBState) (vid kid : Nat) :
    (∀ t ∈ (deleteVideoRaw vid s).transcripts, t.video_id ≠ vid) ∧
    (∀ k ∈ (deleteVideoRaw vid s).knowledge_entries, k.video_id ≠ vid) ∧
    (∀ b ∈ (deleteKnowledgeRaw kid s).bias_flags, b.knowledge_id ≠ kid) ∧
    (deleteVideoRaw vid s).optimization_queue = s.optimization_queue ∧
    (deleteKnowledgeRaw kid s).optimization_queue = s.optimization_queue ∧
    (deleteVideoRaw vid s).processing_log
      = s.processing_log.filter (fun p => decide (p.video_id ≠ vid)) ∧
    (deleteKnowledgeRaw kid s).processing_log = s.processing_log := by
  refine ⟨?_, ?_, ?_, ?_, ?_, ?_, ?_⟩
  · intro t ht hvid
    rw [deleteVideoRaw] at ht
    simp only [foldDeleteTranscripts, foldDeleteKnowledge] at ht
    have h1 := List.mem_filter.mp ht
    have hni := of_decide_eq_true h1.2
    exact hni (List.mem_map.mpr
      ⟨t, List.mem_filter.mpr ⟨h1.1, by simp [hvid]⟩, rfl⟩)
  · intro k hk hvid
    rw [deleteVideoRaw] at hk
    simp only [foldDeleteTranscripts, foldDeleteKnowledge] at hk
    have h1 := List.mem_filter.mp hk
    have hni := of_decide_eq_true h1.2
    exact hni (List.mem_map.mpr
      ⟨k, List.mem_filter.mpr ⟨h1.1, by simp [hvid]⟩, rfl⟩)
  · intro b hb hkid
    rw [deleteKnowledgeRaw] at hb
    have h1 := List.mem_filter.mp hb
    exact (of_decide_eq_true h1.2) hkid
  · rw [deleteVideoRaw]
    simp only [foldDeleteTranscripts, foldDeleteKnowledge]
  · rfl
  · rw [deleteVideoRaw]
    simp only [foldDeleteTranscripts, foldDeleteKnowledge]
  · rfl

/-- C3 counterexample: a state with one video and one processing_log row
for it; deleting the video also deletes the log row, so processing_log
rows are not weak references. -/
theorem c3_counterexample :
    samplePL ∈ dbVideoWithLog.processing_log ∧
    samplePL.video_id = 1 ∧
    (deleteVideoRaw 1 dbVideoWithLog).processing_log = [] := by
  decide

/-- C3 witness: the cascade theorem instantiated at a concrete state. -/
theorem c3_witness :
    (∀ t ∈ (deleteVideoRaw 1 dbVideoWithLog).transcripts, t.video_id ≠ 1) ∧
    (∀ k ∈ (deleteVideoRaw 1 dbVideoWithLog).knowledge_entries, k.video_id ≠ 1) ∧
    (∀ b ∈ (deleteKnowledgeRaw 1 dbVideoWithLog).bias_flags, b.knowledge_id ≠ 1) ∧
    (deleteVideoRaw 1 dbVideoWithLog).optimization_queue = dbVideoWithLog.optimization_queue ∧
    (deleteKnowledgeRaw 1 dbVideoWithLog).optimization_queue = dbVideoWithLog.optimization_queue ∧
    (deleteVideoRaw 1 dbVideoWithLog).processing_log
      = dbVideoWithLog.processing_log.filter (fun p => decide (p.video_id ≠ 1)) ∧
    (deleteKnowledgeRaw 1 dbVideoWithLog).processing_log = dbVideoWithLog.processing_log :=
  c3_cascade_ownership dbVideoWithLog 1 1

/-- C2: inserting a knowledge row whose title contains the query text
makes a search for that text return the id of the row; inserting and then
deleting the row leaves the search returning no match for that id. -/
theorem c2_search_roundtrip (s : DBState) (r : KnowledgeRow) (q : String)
    (hq : occursIn q.data r.title.data = true) :
    r.id ∈ searchKnowledge q (insertKnowledgeRaw r s) ∧
    r.id ∉ searchKnowledge q (deleteKnowledgeRaw r.id (insertKnowledgeRaw r s)) := by
  constructor
  · show r.id ∈ ((s.knowledge_fts ++ [knowledgeIndexed r]).filter
      (fun row => ftsMatch q row)).map (fun row => row.rowid)
    refine List.mem_map.mpr ⟨knowledgeIndexed r, List.mem_filter.mpr ⟨?_, ?_⟩, rfl⟩
    · exact List.mem_append_right _ (List.mem_singleton.mpr rfl)
    · simp [ftsMatch, knowledgeIndexed, hq]
  · intro hmem
    rcases List.mem_map.mp hmem with ⟨row, hrow, hrid⟩
    have h2 := (List.mem_filter.mp hrow).1
    have h3 := (List.mem_filter.mp h2).2
    exact (of_decide_eq_true h3) hrid

/-- C2 witness: the round trip at a concrete state, row and query. -/
theorem c2_witness :
    occursIn "alpha".data sampleK.title.data = true ∧
    (sampleK.id ∈ searchKnowledge "alpha" (insertKnowledgeRaw sampleK dbOneVideo) ∧
     sampleK.id ∉ searchKnowledge "alpha"
       (deleteKnowledgeRaw sampleK.id (insertKnowledgeRaw sampleK dbOneVideo))) :=
  ⟨by decide, c2_search_roundtrip dbOneVideo sampleK "alpha" (by decide)⟩

theorem length_filter_map_eq {α : Type} (g : α → α) (p : α → Bool)
    (hp : ∀ a, p (g a) = p a) (l : List α) :
    ((l.map g).filter p).length = (l.filter p).length := by
  induction l with
  | nil => simp
  | cons a l ih =>
    simp only [List.map_cons, List.filter_cons, hp]
    cases p a <;> simp [ih]

theorem bias_filter_len_le_one (l : List BiasFlagRow)
    (h : l.Pairwise (fun a b => ¬ (a.knowledge_id = b.knowledge_id ∧ a.bias_type = b.bias_type)))
    (kid : Nat) (bt : String) :
    (l.filter (fun b => decide (b.knowledge_id = kid ∧ b.bias_type = bt))).length ≤ 1 := by
  induction l with
  | nil => simp
  | cons a l ih =>
    rw [List.pairwise_cons] at h
    by_cases ha : a.knowledge_id = kid ∧ a.bias_type = bt
    · rw [List.filter_cons_of_pos (by simp [ha])]
      have hnil : l.filter (fun b => decide (b.knowledge_id = kid ∧ b.bias_type = bt)) = [] := by
        refine List.filter_eq_nil_iff.mpr ?_
        intro b hb hkey
        have hkey2 := of_decide_eq_true hkey
        exact h.1 b hb ⟨ha.1.trans hkey2.1.symm, ha.2.trans hkey2.2.symm⟩
      rw [hnil]
      simp
    · rw [List.filter_cons_of_neg (by simp [ha])]
      exact ih h.2

theorem replaceFlag_knowledge_id (f b : BiasFlagRow) :
    (replaceFlag f b).knowledge_id = b.knowledge_id := by
  by_cases hb : b.knowledge_id = f.knowledge_id ∧ b.bias_type = f.bias_type <;>
    simp [replaceFlag, hb]

theorem replaceFlag_bias_type (f b : BiasFlagRow) :
    (replaceFlag f b).bias_type = b.bias_type := by
  by_cases hb : b.knowledge_id = f.knowledge_id ∧ b.bias_type = f.bias_type <;>
    simp [replaceFlag, hb]

/-- C4: when the (knowledge_id, bias_type) key is unique across bias
flags, a bias-scan upsert keeps it unique, and upserting a flag whose key
is already present leaves exactly one row with that key, now carrying the
new severity and notes — the existing row is updated, no second row is
created. -/
theorem c4_bias_upsert (s : DBState) (f : BiasFlagRow) (huniq : biasKeysUnique s) :
    biasKeysUnique (upsertBiasFlag f s) ∧
    ((∃ b ∈ s.bias_flags, b.knowledge_id = f.knowledge_id ∧ b.bias_type = f.bias_type) →
      flagCount (upsertBiasFlag f s) f.knowledge_id f.bias_type = 1 ∧
      ∀ b ∈ (upsertBiasFlag f s).bias_flags,
        b.knowledge_id = f.knowledge_id → b.bias_type = f.bias_type →
          b.bias_severity = f.bias_severity ∧ b.bias_notes = f.bias_notes) := by
  by_cases hc : s.bias_flags.any (fun b =>
      decide (b.knowledge_id = f.knowledge_id ∧ b.bias_type = f.bias_type)) = true
  · have hup : (upsertBiasFlag f s).bias_flags = s.bias_flags.map (replaceFlag f) := by
      rw [upsertBiasFlag, if_pos hc]
    constructor
    · rw [biasKeysUnique, hup]
      refine List.Pairwise.map (replaceFlag f) ?_ huniq
      intro a b hab hkeys
      refine hab ⟨?_, ?_⟩
      · rw [← replaceFlag_knowledge_id f a, ← replaceFlag_knowledge_id f b]
        exact hkeys.1
      · rw [← replaceFlag_bias_type f a, ← replaceFlag_bias_type f b]
        exact hkeys.2
    · intro hex
      have hcount : flagCount (upsertBiasFlag f s) f.knowledge_id f.bias_type
          = (s.bias_flags.filter (fun b =>
              decide (b.knowledge_id = f.knowledge_id ∧ b.bias_type = f.bias_type))).length := by
        rw [flagCount, hup]
        exact length_filter_map_eq (replaceFlag f) _
          (fun a => by simp only [replaceFlag_knowledge_id, replaceFlag_bias_type]) s.bias_flags
      have hle := bias_filter_len_le_one s.bias_flags huniq f.knowledge_id f.bias_type
      have hge : 0 < (s.bias_flags.filter (fun b =>
          decide (b.knowledge_id = f.knowledge_id ∧ b.bias_type = f.bias_type))).length := by
        rcases hex with ⟨b, hb, hbk⟩
        exact List.length_pos.mpr (List.ne_nil_of_mem
          (List.mem_filter.mpr ⟨hb, decide_eq_true hbk⟩))
      refine ⟨by rw [hcount]; omega, ?_⟩
      intro b hb h1 h2
      rw [hup] at hb
      rcases List.mem_map.mp hb with ⟨b0, hb0, rfl⟩
      by_cases hb0k : b0.knowledge_id = f.knowledge_id ∧ b0.bias_type = f.bias_type
      · simp [replaceFlag, hb0k]
      · exfalso
        rw [replaceFlag_knowledge_id f b0] at h1
        rw [replaceFlag_bias_type f b0] at h2
        exact hb0k ⟨h1, h2⟩
  · have hup : (upsertBiasFlag f s).bias_flags = s.bias_flags ++ [f] := by
      rw [upsertBiasFlag, if_neg hc]
    have hno : ∀ b ∈ s.bias_flags,
        ¬ (b.knowledge_id = f.knowledge_id ∧ b.bias_type = f.bias_type) := by
      intro b hb hbk
      exact hc (List.any_eq_true.mpr ⟨b, hb, decide_eq_true hbk⟩)
    constructor
    · rw [biasKeysUnique, hup, List.pairwise_append]
      refine ⟨huniq, List.pairwise_singleton _ _, ?_⟩
      intro a ha b hb
      rw [List.mem_singleton] at hb
      subst hb
      exact hno a ha
    · intro hex
      exfalso
      rcases hex with ⟨b, hb, hbk⟩
      exact hno b hb hbk

/-- C4 witness: the upsert theorem at a concrete state with one flag,
rescanned at a higher severity. -/
theorem c4_witness :
    biasKeysUnique dbFull ∧
    (biasKeysUnique (upsertBiasFlag sampleBHigh dbFull) ∧
     ((∃ b ∈ dbFull.bias_flags,
        b.knowledge_id = sampleBHigh.knowledge_id ∧ b.bias_type = sampleBHigh.bias_type) →
       flagCount (upsertBiasFlag sampleBHigh dbFull) sampleBHigh.knowledge_id sampleBHigh.bias_type = 1 ∧
       ∀ b ∈ (upsertBiasFlag sampleBHigh dbFull).bias_flags,
         b.knowledge_id = sampleBHigh.knowledge_id → b.bias_type = sampleBHigh.bias_type →
           b.bias_severity = sampleBHigh.bias_severity ∧ b.bias_notes = sampleBHigh.bias_notes)) :=
  ⟨by decide, c4_bias_upsert dbFull sampleBHigh (by decide)⟩

/-- C5: when every stored knowledge entry satisfies the CHECK constraints
and a checked insert succeeds, every entry of the new state still
satisfies them (entry_type in the seven-value list, confidence between 0
and 1); an insert whose confidence lies outside the closed interval is
rejected; and an INSERT that omits the confidence column stores the
DEFAULT 0.8. -/
theorem c5_knowledge_constraints (s s2 : DBState) (r : KnowledgeRow)
    (hall : ∀ k ∈ s.knowledge_entries, storedEntryOk k)
    (hok : insertKnowledgeChecked r s = Except.ok s2) :
    (∀ k ∈ s2.knowledge_entries, storedEntryOk k) ∧
    (∀ r2 : KnowledgeRow, r2.confidence < 0 ∨ 1 < r2.confidence →
      (insertKnowledgeChecked r2 s).isOk = false) ∧
    (∀ (i v : Nat) (et ti co : String) (st en : Option Rat) (sq : Option String)
        (ci : Option Nat) (ca : String),
      (mkKnowledgeRow i v et ti co st en sq none ci ca).confidence = 4/5) := by
  refine ⟨?_, ?_, ?_⟩
  · rw [insertKnowledgeChecked] at hok
    split_ifs at hok with h1 h2 h3
    have hs2 : s2 = insertKnowledgeRaw r s := (Except.ok.injEq _ _).mp hok.symm
    subst hs2
    intro k hk
    rcases List.mem_append.mp hk with hold | hnew
    · exact hall k hold
    · rw [List.mem_singleton] at hnew
      subst hnew
      have hv1 : entryTypeValid k.entry_type = true := by
        cases hv : entryTypeValid k.entry_type
        · exact absurd hv h1
        · rfl
      have hv2 : (0 ≤ k.confidence ∧ k.confidence ≤ 1) := by
        cases hv : decide (0 ≤ k.confidence ∧ k.confidence ≤ 1)
        · exact absurd hv h2
        · exact of_decide_eq_true hv
      exact ⟨hv1, hv2.1, hv2.2⟩
  · intro r2 hbad
    rw [insertKnowledgeChecked]
    split_ifs with h1 h2 h3
    · rfl
    · rfl
    · rfl
    · exfalso
      have hv2 := of_decide_eq_true (by
        cases hv : decide (0 ≤ r2.confidence ∧ r2.confidence ≤ 1)
        · exact absurd hv h2
        · rfl)
      rcases hbad with hlt | hgt
      · exact absurd hv2.1 (not_le.mpr hlt)
      · exact absurd hv2.2 (not_le.mpr hgt)
  · intro i v et ti co st en sq ci ca
    rfl

instance {e a : Type} [DecidableEq e] [DecidableEq a] : DecidableEq (Except e a) := fun x y =>
  match x, y with
  | Except.ok u, Except.ok v =>
    if h : u = v then Decidable.isTrue (by rw [h]) else Decidable.isFalse (by simp [h])
  | Except.ok _, Except.error _ => Decidable.isFalse (by simp)
  | Except.error _, Except.ok _ => Decidable.isFalse (by simp)
  | Except.error u, Except.error v =>
    if h : u = v then Decidable.isTrue (by rw [h]) else Decidable.isFalse (by simp [h])

/-- C5 witness: the constraint theorem at a concrete insert. -/
theorem c5_witness :
    (∀ k ∈ dbOneVideo.knowledge_entries, storedEntryOk k) ∧
    insertKnowledgeChecked sampleK dbOneVideo
      = Except.ok (insertKnowledgeRaw sampleK dbOneVideo) ∧
    ((∀ k ∈ (insertKnowledgeRaw sampleK dbOneVideo).knowledge_entries, storedEntryOk k) ∧
     (∀ r2 : KnowledgeRow, r2.confidence < 0 ∨ 1 < r2.confidence →
       (insertKnowledgeChecked r2 dbOneVideo).isOk = false) ∧
     (∀ (i v : Nat) (et ti co : String) (st en : Option Rat) (sq : Option String)
         (ci : Option Nat) (ca : String),
       (mkKnowledgeRow i v et ti co st en sq none ci ca).confidence = 4/5)) :=
  ⟨by decide, by decide,
   c5_knowledge_constraints dbOneVideo (insertKnowledgeRaw sampleK dbOneVideo) sampleK
     (by decide) (by decide)⟩

/-- C6: an enqueued optimization item always carries a status from the
CHECK list; with severity suggestion or destructive it is created pending;
with severity auto it is recorded executed when the immediate execution
succeeded and failed when it raised an error, never passing through
pending or approved; the item is appended to the queue. -/
theorem c6_enqueue_severity (qid : Nat) (actionType severity targetType : String)
    (targetId : Option Nat) (description : String) (details : Option String)
    (createdAt : String) (execResult : Except String Unit) (s : DBState)
    (hsev : severity = "auto" ∨ severity = "suggestion" ∨ severity = "destructive") :
    statusValid (enqueueItem qid actionType severity targetType targetId description
      details createdAt execResult).status = true ∧
    severityValid (enqueueItem qid actionType severity targetType targetId description
      details createdAt execResult).severity = true ∧
    ((severity = "suggestion" ∨ severity = "destructive") →
      (enqueueItem qid actionType severity targetType targetId description
        details createdAt execResult).status = "pending") ∧
    (severity = "auto" →
      (∀ u, execResult = Except.ok u →
        (enqueueItem qid actionType severity targetType targetId description
          details createdAt execResult).status = "executed") ∧
      (∀ e, execResult = Except.error e →
        (enqueueItem qid actionType severity targetType targetId description
          details createdAt execResult).status = "failed") ∧
      (enqueueItem qid actionType severity targetType targetId description
        details createdAt execResult).status ≠ "pending" ∧
      (enqueueItem qid actionType severity targetType targetId description
        details createdAt execResult).status ≠ "approved") ∧
    (enqueue qid actionType severity targetType targetId description details
      createdAt execResult s).optimization_queue
      = s.optimization_queue ++ [enqueueItem qid actionType severity targetType
          targetId description details createdAt execResult] := by
  rcases hsev with h | h | h <;> subst h <;> cases execResult <;>
    simp [enqueueItem, enqueue, statusValid, severityValid]

/-- A sample outcome of an immediately executed auto action. -/
def sampleExec : Except String Unit := Except.ok ()

/-- C6 witness: the enqueue theorem at concrete arguments, one destructive
enqueue (severity hypothesis discharged on the destructive case). -/
theorem c6_witness :
    ("destructive" = "auto" ∨ "destructive" = "suggestion" ∨ ("destructive" : String) = "destructive") ∧
    (statusValid (enqueueItem 1 "delete_entry" "destructive" "knowledge_entry" (some 1)
      "remove low quality entry" none "t0" sampleExec).status = true ∧
     severityValid (enqueueItem 1 "delete_entry" "destructive" "knowledge_entry" (some 1)
      "remove low quality entry" none "t0" sampleExec).severity = true ∧
     (("destructive" = "suggestion" ∨ ("destructive" : String) = "destructive") →
       (enqueueItem 1 "delete_entry" "destructive" "knowledge_entry" (some 1)
         "remove low quality entry" none "t0" sampleExec).status = "pending") ∧
     (("destructive" : String) = "auto" →
       (∀ u, sampleExec = Except.ok u →
         (enqueueItem 1 "delete_entry" "destructive" "knowledge_entry" (some 1)
           "remove low quality entry" none "t0" sampleExec).status = "executed") ∧
       (∀ e, sampleExec = Except.error e →
         (enqueueItem 1 "delete_entry" "destructive" "knowledge_entry" (some 1)
           "remove low quality entry" none "t0" sampleExec).status = "failed") ∧
       (enqueueItem 1 "delete_entry" "destructive" "knowledge_entry" (some 1)
         "remove low quality entry" none "t0" sampleExec).status ≠ "pending" ∧
       (enqueueItem 1 "delete_entry" "destructive" "knowledge_entry" (some 1)
         "remove low quality entry" none "t0" sampleExec).status ≠ "approved") ∧
     (enqueue 1 "delete_entry" "destructive" "knowledge_entry" (some 1)
       "remove low quality entry" none "t0" sampleExec dbEmpty).optimization_queue
       = dbEmpty.optimization_queue ++ [enqueueItem 1 "delete_entry" "destructive"
           "knowledge_entry" (some 1) "remove low quality entry" none "t0" sampleExec]) :=
  ⟨Or.inr (Or.inr rfl),
   c6_enqueue_severity 1 "delete_entry" "destructive" "knowledge_entry" (some 1)
     "remove low quality entry" none "t0" sampleExec dbEmpty (Or.inr (Or.inr rfl))⟩

/-- C7: a write that would violate a uniqueness constraint — a second
video with the same video_id, a second transcript for the same video, or
a second bias flag with the same (knowledge_id, bias_type) — fails with
an error surfaced to the caller, and the single-attempt write path
returns the store unchanged. -/
theorem c7_integrity_unchanged (s : DBState) (rv : VideoRow) (rt : TranscriptRow)
    (rb : BiasFlagRow)
    (hv : s.videos.any (fun v => decide (v.video_id = rv.video_id)) = true)
    (ht : s.transcripts.any (fun t => decide (t.video_id = rt.video_id)) = true)
    (hb : s.bias_flags.any (fun b =>
      decide (b.knowledge_id = rb.knowledge_id ∧ b.bias_type = rb.bias_type)) = true) :
    ((runWrite (insertVideoChecked rv) s).1 = s ∧
     (runWrite (insertVideoChecked rv) s).2.isSome = true) ∧
    ((runWrite (insertTranscriptChecked rt) s).1 = s ∧
     (runWrite (insertTranscriptChecked rt) s).2.isSome = true) ∧
    ((runWrite (insertBiasFlagChecked rb) s).1 = s ∧
     (runWrite (insertBiasFlagChecked rb) s).2.isSome = true) := by
  refine ⟨?_, ?_, ?_⟩
  · rw [runWrite, insertVideoChecked]
    split_ifs <;> exact ⟨rfl, rfl⟩
  · rw [runWrite, insertTranscriptChecked]
    split_ifs
    exact ⟨rfl, rfl⟩
  · rw [runWrite, insertBiasFlagChecked]
    split_ifs <;> exact ⟨rfl, rfl⟩

/-- C7 witness: the three uniqueness violations at a concrete state that
already holds the sample video, transcript and bias flag. -/
theorem c7_witness :
    (let s := { dbFull with transcripts := [sampleT] };
     s.videos.any (fun v => decide (v.video_id = sampleV.video_id)) = true ∧
     s.transcripts.any (fun t => decide (t.video_id = sampleT.video_id)) = true ∧
     s.bias_flags.any (fun b =>
       decide (b.knowledge_id = sampleB.knowledge_id ∧ b.bias_type = sampleB.bias_type)) = true ∧
     (((runWrite (insertVideoChecked sampleV) s).1 = s ∧
       (runWrite (insertVideoChecked sampleV) s).2.isSome = true) ∧
      ((runWrite (insertTranscriptChecked sampleT) s).1 = s ∧
       (runWrite (insertTranscriptChecked sampleT) s).2.isSome = true) ∧
      ((runWrite (insertBiasFlagChecked sampleB) s).1 = s ∧
       (runWrite (insertBiasFlagChecked sampleB) s).2.isSome = true))) :=
  ⟨by decide, by decide, by decide,
   c7_integrity_unchanged { dbFull with transcripts := [sampleT] } sampleV sampleT sampleB
     (by decide) (by decide) (by decide)⟩

theorem escapeHtmlChar_no_raw (a : Char) : ∀ c ∈ escapeHtmlChar a, c ≠ '<' ∧ c ≠ '>' := by
  intro c hc
  rw [escapeHtmlChar] at hc
  split_ifs at hc with h1 h2 h3 h4
  · exact (by decide : ∀ c ∈ "&amp;".data, c ≠ '<' ∧ c ≠ '>') c hc
  · exact (by decide : ∀ c ∈ "&lt;".data, c ≠ '<' ∧ c ≠ '>') c hc
  · exact (by decide : ∀ c ∈ "&gt;".data, c ≠ '<' ∧ c ≠ '>') c hc
  · exact (by decide : ∀ c ∈ "&nbsp;".data, c ≠ '<' ∧ c ≠ '>') c hc
  · rw [List.mem_singleton] at hc
    subst hc
    exact ⟨h2, h3⟩

/-- C8: the body HTML addMessageToUI inserts is escapeHtml of the content;
escapeHtml distributes over concatenation and maps the single characters
ampersand, less-than and greater-than to their entities — so every
occurrence in any input is mapped — and its output never contains a raw
less-than or greater-than character. -/
theorem c8_escape_html (s t : String) :
    addMessageBodyHtml s = escapeHtml s ∧
    (escapeHtml (s ++ t)).data = (escapeHtml s).data ++ (escapeHtml t).data ∧
    escapeHtml "&" = "&amp;" ∧ escapeHtml "<" = "&lt;" ∧ escapeHtml ">" = "&gt;" ∧
    (∀ c ∈ (escapeHtml s).data, c ≠ '<' ∧ c ≠ '>') := by
  refine ⟨rfl, ?_, by decide, by decide, by decide, ?_⟩
  · cases s with
    | mk sd =>
      cases t with
      | mk td =>
        show (sd ++ td).flatMap escapeHtmlChar
          = sd.flatMap escapeHtmlChar ++ td.flatMap escapeHtmlChar
        exact List.flatMap_append sd td escapeHtmlChar
  · intro c hc
    rcases List.mem_flatMap.mp hc with ⟨a, ha, hc2⟩
    exact escapeHtmlChar_no_raw a c hc2

/-- C8 witness: the escaping theorem at concrete strings containing the
special characters. -/
theorem c8_witness :
    addMessageBodyHtml "a<b" = escapeHtml "a<b" ∧
    (escapeHtml ("a<b" ++ "&c")).data = (escapeHtml "a<b").data ++ (escapeHtml "&c").data ∧
    escapeHtml "&" = "&amp;" ∧ escapeHtml "<" = "&lt;" ∧ escapeHtml ">" = "&gt;" ∧
    (∀ c ∈ (escapeHtml "a<b").data, c ≠ '<' ∧ c ≠ '>') :=
  c8_escape_html "a<b" "&c"

/-- C9: clicking undo on a non-empty annotations list removes exactly the
last annotation, pushes that annotation onto the undo stack and keeps the
earlier annotations unchanged in order; on an empty list the click
changes nothing. -/
theorem c9_undo (cs : CanvasState) :
    (∀ (xs : List AnnotationItem) (a : AnnotationItem),
      cs.annotations = xs ++ [a] →
        (undoClick cs).annotations = xs ∧
        (undoClick cs).undoStack = cs.undoStack ++ [a]) ∧
    (cs.annotations = [] → undoClick cs = cs) := by
  constructor
  · intro xs a h
    constructor
    · simp [undoClick, h]
    · simp [undoClick, h]
  · intro h
    simp [undoClick, h]

/-- A sample line annotation. -/
def ann0 : AnnotationItem := AnnotationItem.line 0 0 5 5 "#ff0000" 3

/-- A sample text annotation. -/
def ann1 : AnnotationItem := AnnotationItem.text 1 2 "bull here" "#00ff00" 16

/-- A sample canvas state with two annotations. -/
def cs9 : CanvasState :=
  { imageId := some 1, tool := "pen", color := "#ff0000", lineWidth := 3,
    isDrawing := false, startX := 0, startY := 0,
    annotations := [ann0, ann1], undoStack := [] }

/-- The sample canvas state with no annotations. -/
def cs9e : CanvasState := { cs9 with annotations := [] }

/-- C9 witness: the undo theorem at a concrete two-annotation state and at
the empty state. -/
theorem c9_witness :
    cs9.annotations = [ann0] ++ [ann1] ∧
    ((undoClick cs9).annotations = [ann0] ∧
     (undoClick cs9).undoStack = cs9.undoStack ++ [ann1]) ∧
    cs9e.annotations = [] ∧ undoClick cs9e = cs9e :=
  ⟨by decide, (c9_undo cs9).1 [ann0] ann1 (by decide), by decide,
   (c9_undo cs9e).2 (by decide)⟩

/-- C10: removeAttachment leaves pendingImageIds a sublist of the prior
list (order preserved, nothing added), with zero occurrences of the
removed id and the occurrence count of every other id unchanged. -/
theorem c10_remove_attachment (l : List Nat) (x : Nat) :
    (removeAttachment x l).Sublist l ∧
    (removeAttachment x l).count x = 0 ∧
    (∀ y, y ≠ x → (removeAttachment x l).count y = l.count y) := by
  refine ⟨List.filter_sublist l, ?_, ?_⟩
  · rw [removeAttachment, List.count_eq_zero]
    intro hx
    have h2 := (List.mem_filter.mp hx).2
    simp at h2
  · intro y hy
    rw [removeAttachment]
    exact List.count_filter (by simp [hy])

/-- C10 witness: the removal theorem at a concrete list holding the id
twice. -/
theorem c10_witness :
    (removeAttachment 3 [3, 7, 3, 9]).Sublist [3, 7, 3, 9] ∧
    (removeAttachment 3 [3, 7, 3, 9]).count 3 = 0 ∧
    (∀ y, y ≠ 3 → (removeAttachment 3 [3, 7, 3, 9]).count y = [3, 7, 3, 9].count y) :=
  c10_remove_attachment [3, 7, 3, 9] 3
